import Mathlib

/-!
Verification of the news-aggregation pipeline and admin operations of
`admin_app.py` (RFID cube admin + continuous tech news).

The Python code is shallowly embedded: Python `str` is Lean `String`
(a wrapper around `List Char`); string primitives (`strip`, `lower`,
`upper`, `split`, `rstrip`, `in`, implicit truthiness `or`) are defined
below to match CPython semantics on ASCII data (the repository's keyword
list and all string constants are ASCII; Unicode-specific case folding
and exotic Unicode whitespace are outside the model).  Fallible effects
(HTTP requests, JSON parsing, file reads) are embedded as `Option`/sum
types: `none` represents the exception path that the source catches
locally.  `random.shuffle` in `dedupe_and_filter` is modelled by proving
the relevant properties for every iteration order, i.e. universally over
the (already shuffled) input list.
-/

/-! ## Python string primitives -/

/-- ASCII whitespace recognised by Python's `str.strip` / `str.split`
(space, tab, newline, carriage return, vertical tab, form feed). -/
def isPyWS (c : Char) : Bool :=
  c = ' ' || c = '\t' || c = '\n' || c = '\r' || c = '\x0b' || c = '\x0c'

/-- Python `str.strip()` on a character list: drop leading and trailing
whitespace. -/
def pyStripL (cs : List Char) : List Char :=
  ((cs.dropWhile isPyWS).reverse.dropWhile isPyWS).reverse

/-- Python `str.strip()`. -/
def pyStrip (s : String) : String := ⟨pyStripL s.data⟩

/-- Python `str.lower()` (ASCII model). -/
def pyLower (s : String) : String := ⟨s.data.map Char.toLower⟩

/-- Python `str.upper()` on a single character (ASCII model):
codepoints 97–122 (`a`–`z`) are shifted down by 32. -/
def pyToUpper (c : Char) : Char :=
  if 97 ≤ c.toNat ∧ c.toNat ≤ 122 then Char.ofNat (c.toNat - 32) else c

/-- Python `str.upper()` (ASCII model). -/
def pyUpper (s : String) : String := ⟨s.data.map pyToUpper⟩

/-- Python `a or b` for strings: `a` if it is truthy (non-empty), else `b`. -/
def pyOr (a b : String) : String := if a = "" then b else a

/-- Does `l` start with `p`? (Python `str.startswith`, used to define `in`.) -/
def startsWithL : List Char → List Char → Bool
  | _, [] => true
  | [], _ :: _ => false
  | c :: cs, p :: ps => c = p && startsWithL cs ps

/-- Python substring test `p in l`. -/
def isSubstr (p : List Char) : List Char → Bool
  | [] => startsWithL [] p
  | c :: cs => startsWithL (c :: cs) p || isSubstr p cs

/-- Does `l` end with `suf`? -/
def endsWithL (l suf : List Char) : Bool :=
  startsWithL l.reverse suf.reverse

/-- The characters stripped by `rstrip('.,;:')` in `shorten_description`. -/
def isTrailPunct (c : Char) : Bool :=
  c = '.' || c = ',' || c = ';' || c = ':'

/-- Python `str.rstrip('.,;:')`: drop trailing `.`/`,`/`;`/`:` characters. -/
def pyRstripPunct (cs : List Char) : List Char :=
  (cs.reverse.dropWhile isTrailPunct).reverse

/-- Python `str.split()` (no separator argument): the maximal runs of
non-whitespace characters, in order.  Defined by structural recursion on
the character list: a non-whitespace character either starts a fresh word
(when followed by whitespace or the end) or is prepended to the word that
starts at the next character. -/
def pyWords : List Char → List (List Char)
  | [] => []
  | c :: cs =>
    if isPyWS c then pyWords cs
    else
      match cs, pyWords cs with
      | [], _ => [[c]]
      | d :: _, ws =>
        if isPyWS d then [c] :: ws
        else
          match ws with
          | [] => [[c]]
          | w :: rest => (c :: w) :: rest

/-- Python `" ".join(words)`. -/
def joinSp : List (List Char) → List Char
  | [] => []
  | [w] => w
  | w :: ws => w ++ ' ' :: joinSp ws

/-- Return the suffix after the first `>` character, if any. -/
def afterFirstGt : List Char → Option (List Char)
  | [] => none
  | c :: cs => if c = '>' then some cs else afterFirstGt cs

/-- One step of `re.sub(r'<[^>]+>', '', text)` at a `<`: the regex matches
iff the next character exists and is not `>` (so `[^>]+` is non-empty) and
a `>` occurs later; the match then extends to the first such `>`. -/
def cutTag (rest : List Char) : Option (List Char) :=
  match rest with
  | [] => none
  | c2 :: _ => if c2 = '>' then none else afterFirstGt rest

/-- `re.sub(r'<[^>]+>', '', text)`: left-to-right removal of non-overlapping
tag matches.  `fuel` bounds the recursion depth; every recursive call
consumes at least one character of the input, so `fuel = length` (as used
by `stripTags`) never runs out and the `0` case is unreachable. -/
def stripTagsFuel : Nat → List Char → List Char
  | 0, cs => cs
  | fuel + 1, cs =>
    match cs with
    | [] => []
    | c :: rest =>
      if c = '<' then
        match cutTag rest with
        | some after => stripTagsFuel fuel after
        | none => '<' :: stripTagsFuel fuel rest
      else c :: stripTagsFuel fuel rest

/-- `re.sub(r'<[^>]+>', '', text)`. -/
def stripTags (cs : List Char) : List Char :=
  stripTagsFuel cs.length cs

/-- `text.replace('\n', ' ').replace('\r', ' ')` on one character. -/
def nlToSpace (c : Char) : Char :=
  if c = '\n' then ' ' else if c = '\r' then ' ' else c

/-- The text cleaning done by `shorten_description` before word counting:
remove HTML tags, replace CR/LF by spaces, and strip surrounding
whitespace. -/
def cleanText (cs : List Char) : List Char :=
  pyStripL ((stripTags cs).map nlToSpace)

/-! ## Data model -/

/-- A normalized news item (`normalize_article` output shape). -/
structure NewsItem where
  title : String
  description : String
  link : String
  source : String
  published : String
deriving DecidableEq

/-- The persisted news cache: `{"generated": ..., "items": [...]}`. -/
structure NewsCache where
  generated : Int
  items : List NewsItem
deriving DecidableEq

/-! ## Normalizer (`shorten_description`, `normalize_article`) -/

/-- `shorten_description(text, max_words=45)` from `admin_app.py`:
strip HTML tags and newlines, and truncate to the first `max_words`
whitespace-delimited words, appending `"..."` (after `rstrip('.,;:')`)
when truncation happens. -/
def shorten_description (text : String) (max_words : Nat := 45) : String :=
  if text = "" then ""
  else
    let t := cleanText text.data
    let words := pyWords t
    if max_words < words.length then
      ⟨pyRstripPunct (joinSp (words.take max_words)) ++ ['.', '.', '.']⟩
    else ⟨t⟩

/-- `normalize_article` from `admin_app.py`.  The Python `(title or "")`
guards against `None`; inputs are modelled as strings, with `None`
already collapsed to `""`. -/
def normalize_article (title description link source published : String) : NewsItem :=
  let t := pyStrip title
  { title := t
    description := shorten_description (pyOr description t) 45
    link := link
    source := source
    published := published }

/-! ## Keyword filter and deduplication -/

/-- `ALLOWED_KEYWORDS` from `admin_app.py`.  Note the Python source has a
missing comma between the string literals `"model"` and
`"Deep Learning"`, which concatenate into the single keyword
`"modelDeep Learning"`. -/
def ALLOWED_KEYWORDS : List String :=
  ["AI", "Machine", "ML", "GPT", "Llama", "Claude",
   "Python", "JavaScript", "Rust", "Go", "TypeScript", "Framework",
   "Release", "Launch", "Tool", "Open Source", "API", "SDK",
   "Cloud", "Data", "Security", "Technology", "Industry", "innovation",
   "modelDeep Learning", "Neural Network", "Transformers", "ChatGPT", "Autonomous"]

/-- `any(k.lower() in t.lower() for k in ALLOWED_KEYWORDS)`. -/
def matchesKeyword (t : String) : Bool :=
  ALLOWED_KEYWORDS.any (fun k => isSubstr (pyLower k).data (pyLower t).data)

/-- The loop body of `dedupe_and_filter`: `seenT`/`seenL` are the
`seen_titles`/`seen_links` sets, `count` is `len(out)` so far.  An item is
skipped when its stripped title is empty, matches no keyword, or its
stripped title (or non-empty stripped link) was already seen; otherwise it
is emitted, and iteration stops once `count` reaches `maxI`. -/
def ddfGo : List NewsItem → List String → List String → Nat → Nat → List NewsItem
  | [], _, _, _, _ => []
  | it :: rest, seenT, seenL, count, maxI =>
    let t := pyStrip it.title
    let l := pyStrip it.link
    if t = "" then
      ddfGo rest seenT seenL count maxI
    else if !matchesKeyword t then
      ddfGo rest seenT seenL count maxI
    else if seenT.contains t || (!(l == "") && seenL.contains l) then
      ddfGo rest seenT seenL count maxI
    else if maxI ≤ count + 1 then
      [it]
    else
      it :: ddfGo rest (t :: seenT) (if l == "" then seenL else l :: seenL) (count + 1) maxI

/-- `dedupe_and_filter(items, max_items)` from `admin_app.py`, applied to
the iteration order produced by `random.shuffle` (theorems quantify over
all orders, hence over all shuffle outcomes). -/
def dedupe_and_filter (items : List NewsItem) (max_items : Nat := 80) : List NewsItem :=
  ddfGo items [] [] 0 max_items

/-! ## Source adapters

HTTP and parsing effects are embedded as data: `NetResult` is the outcome
of the `requests.get` / `raise_for_status` / `r.json()` sequence inside
the adapter's `try` block.  `exn` is a raised network error (connection
failure, timeout), `ok status body` a received HTTP response whose body
parses to `some` payload or fails to parse (`none`).  Every `except`
branch of the source logs and returns `[]`. -/

/-- Outcome of an adapter's HTTP call, as seen inside its `try` block. -/
inductive NetResult (α : Type) where
  | exn : NetResult α
  | ok : Nat → Option α → NetResult α
deriving DecidableEq

/-- `requests.Response.raise_for_status()` raises `HTTPError` exactly for
the client-error (4xx) and server-error (5xx) status ranges, i.e. for
`400 <= status < 600`; any other status proceeds normally. -/
def raise_for_status_throws (status : Nat) : Bool :=
  400 ≤ status && status < 600

/-- Python `a or b` for lists: `a` if non-empty (truthy), else `b`. -/
def pyOrList {α : Type} (a b : List α) : List α :=
  match a with
  | [] => b
  | _ :: _ => a

/-- One element of the `articles` list in a NewsAPI response, with the
`dict.get` defaults of the source already applied (missing `title` is
`""`, missing `source.name` is `"NewsAPI"`, and so on). -/
structure NAArticle where
  title : String
  description : String
  content : String
  url : String
  sourceName : String
  publishedAt : String
deriving DecidableEq

/-- `fetch_from_newsapi(api_key, page_size)` from `admin_app.py`.
`page_size` only feeds the request parameters.  A missing key returns
`[]` before the network is consulted (the result does not depend on
`net`); a raised request, a 4xx/5xx status (`raise_for_status`), or an
unparseable body all land in the `except` branch, which returns `[]`.
Statuses outside 400-599 do not raise and proceed to parsing. -/
def fetch_from_newsapi (api_key : String) (net : NetResult (List NAArticle))
    (page_size : Nat := 20) : List NewsItem :=
  if api_key = "" then []
  else
    match net with
    | .exn => []
    | .ok status body =>
      if raise_for_status_throws status then []
      else
        match body with
        | none => []
        | some articles =>
          let out := articles.map (fun a =>
            normalize_article ("[NewsAPI] " ++ pyStrip a.title)
              (pyOr a.description a.content) a.url a.sourceName a.publishedAt)
          dedupe_and_filter out 60

/-- `fetch_from_gnews(api_key, max_items)` from `admin_app.py`.  The GNews
response articles are read through the same keys and defaults as NewsAPI
articles (missing `source.name` defaults to `"GNews"`, folded into the
field value), so the `NAArticle` shape is reused. -/
def fetch_from_gnews (api_key : String) (net : NetResult (List NAArticle))
    (max_items : Nat := 20) : List NewsItem :=
  if api_key = "" then []
  else
    match net with
    | .exn => []
    | .ok status body =>
      if raise_for_status_throws status then []
      else
        match body with
        | none => []
        | some articles =>
          let out := articles.map (fun a =>
            normalize_article ("[GNews] " ++ pyStrip a.title)
              (pyOr a.description a.content) a.url a.sourceName a.publishedAt)
          dedupe_and_filter out 60

/-- One element of the Mediastack `data` list, defaults applied
(missing `source` is `"Mediastack"`). -/
structure MSArticle where
  title : String
  description : String
  url : String
  source : String
  publishedAt : String
deriving DecidableEq

/-- `fetch_from_mediastack(api_key, page_size)` from `admin_app.py`;
`page_size` only feeds the request parameters. -/
def fetch_from_mediastack (api_key : String) (net : NetResult (List MSArticle))
    (page_size : Nat := 20) : List NewsItem :=
  if api_key = "" then []
  else
    match net with
    | .exn => []
    | .ok status body =>
      if raise_for_status_throws status then []
      else
        match body with
        | none => []
        | some news_list =>
          let out := news_list.map (fun a =>
            normalize_article ("[Mediastack] " ++ a.title) a.description
              a.url a.source a.publishedAt)
          dedupe_and_filter out 60

/-- One element of the NewsData `results` list, defaults applied
(missing `source_id` is `"NewsData"`). -/
structure NDArticle where
  title : String
  description : String
  content : String
  link : String
  sourceId : String
  pubDate : String
deriving DecidableEq

/-- `fetch_from_newsdata(api_key, max_items)` from `admin_app.py`. -/
def fetch_from_newsdata (api_key : String) (net : NetResult (List NDArticle))
    (max_items : Nat := 20) : List NewsItem :=
  if api_key = "" then []
  else
    match net with
    | .exn => []
    | .ok status body =>
      if raise_for_status_throws status then []
      else
        match body with
        | none => []
        | some articles =>
          let out := (articles.take max_items).map (fun a =>
            normalize_article ("[NewsData] " ++ a.title)
              (pyOr a.description a.content) a.link a.sourceId a.pubDate)
          dedupe_and_filter out 60

/-- One element of the TheNewsAPI `data` list, defaults applied
(missing `source` is `"TheNewsAPI"`). -/
structure TNArticle where
  title : String
  description : String
  snippet : String
  url : String
  source : String
  publishedAt : String
deriving DecidableEq

/-- `fetch_from_thenewsapi(api_key, max_items)` from `admin_app.py`. -/
def fetch_from_thenewsapi (api_key : String) (net : NetResult (List TNArticle))
    (max_items : Nat := 20) : List NewsItem :=
  if api_key = "" then []
  else
    match net with
    | .exn => []
    | .ok status body =>
      if raise_for_status_throws status then []
      else
        match body with
        | none => []
        | some articles =>
          let out := (articles.take max_items).map (fun a =>
            normalize_article ("[TheNewsAPI] " ++ a.title)
              (pyOr a.description a.snippet) a.url a.source a.publishedAt)
          dedupe_and_filter out 60

/-- One element of the ContextualWeb `value`/`articles` lists; `None`
values from `a.get(...)` are collapsed to `""`, and the nested
`provider.name` (default `"ContextualWeb"`) is folded into
`providerName`. -/
structure CWArticle where
  title : String
  name : String
  description : String
  snippet : String
  url : String
  urlToImage : String
  providerName : String
  datePublished : String
deriving DecidableEq

/-- The parsed ContextualWeb response body: the `value` and `articles`
lists read by `data.get("value", []) or data.get("articles", []) or []`. -/
structure CWPayload where
  value : List CWArticle
  articles : List CWArticle
deriving DecidableEq

/-- `fetch_from_contextualweb_rapidapi(rapidapi_key, rapidapi_host,
max_items)` from `admin_app.py`.  The credential is a key+host pair:
either one missing returns `[]` before the network is consulted. -/
def fetch_from_contextualweb_rapidapi (rapidapi_key rapidapi_host : String)
    (net : NetResult CWPayload) (max_items : Nat := 20) : List NewsItem :=
  if rapidapi_key = "" ∨ rapidapi_host = "" then []
  else
    match net with
    | .exn => []
    | .ok status body =>
      if raise_for_status_throws status then []
      else
        match body with
        | none => []
        | some data =>
          let articles := pyOrList data.value data.articles
          let out := (articles.take max_items).map (fun a =>
            let title := pyOr a.title a.name
            let desc := pyOr a.description a.snippet
            let link := pyOr a.url a.urlToImage
            normalize_article ("[ContextualWeb] " ++ title) desc link
              a.providerName a.datePublished)
          dedupe_and_filter out 60

/-- One element of the Webz `hits` list, defaults applied (missing
`source` is `"Webz"`). -/
structure WebzHit where
  title : String
  text : String
  url : String
  source : String
  publishedAt : String
deriving DecidableEq

/-- `fetch_from_webz(webz_key, max_items)` from `admin_app.py`. -/
def fetch_from_webz (webz_key : String) (net : NetResult (List WebzHit))
    (max_items : Nat := 20) : List NewsItem :=
  if webz_key = "" then []
  else
    match net with
    | .exn => []
    | .ok status body =>
      if raise_for_status_throws status then []
      else
        match body with
        | none => []
        | some hits =>
          let out := (hits.take max_items).map (fun h =>
            normalize_article ("[Webz] " ++ h.title) h.text h.url h.source
              h.publishedAt)
          dedupe_and_filter out 60

/-- One element of the Guardian `response.results` list, defaults
applied (`fields.trailText` folded into `trailText`). -/
structure GuardianResult where
  webTitle : String
  trailText : String
  webUrl : String
  webPublicationDate : String
deriving DecidableEq

/-- `fetch_from_guardian(api_key, max_items)` from `admin_app.py`;
`max_items` only feeds the request parameters. -/
def fetch_from_guardian (api_key : String) (net : NetResult (List GuardianResult))
    (max_items : Nat := 20) : List NewsItem :=
  if api_key = "" then []
  else
    match net with
    | .exn => []
    | .ok status body =>
      if raise_for_status_throws status then []
      else
        match body with
        | none => []
        | some results =>
          let out := results.map (fun rj =>
            normalize_article ("[Guardian] " ++ rj.webTitle) rj.trailText
              rj.webUrl "The Guardian" rj.webPublicationDate)
          dedupe_and_filter out 60

/-- One element of the NYTimes `results` list, defaults applied. -/
structure NYTResult where
  title : String
  abstract : String
  url : String
  publishedDate : String
deriving DecidableEq

/-- `fetch_from_nytimes(api_key, max_items)` from `admin_app.py`. -/
def fetch_from_nytimes (api_key : String) (net : NetResult (List NYTResult))
    (max_items : Nat := 20) : List NewsItem :=
  if api_key = "" then []
  else
    match net with
    | .exn => []
    | .ok status body =>
      if raise_for_status_throws status then []
      else
        match body with
        | none => []
        | some results =>
          let out := (results.take max_items).map (fun rj =>
            normalize_article ("[NYTimes] " ++ rj.title) rj.abstract rj.url
              "NYTimes" rj.publishedDate)
          dedupe_and_filter out 60

/-- One element of the Newscatcher `articles` list, defaults applied
(missing `clean_url` is `"Newscatcher"`). -/
structure NCArticle where
  title : String
  summary : String
  excerpt : String
  link : String
  cleanUrl : String
  publishedDate : String
deriving DecidableEq

/-- `fetch_from_newscatcher(api_key, max_items)` from `admin_app.py`. -/
def fetch_from_newscatcher (api_key : String) (net : NetResult (List NCArticle))
    (max_items : Nat := 20) : List NewsItem :=
  if api_key = "" then []
  else
    match net with
    | .exn => []
    | .ok status body =>
      if raise_for_status_throws status then []
      else
        match body with
        | none => []
        | some articles =>
          let out := (articles.take max_items).map (fun a =>
            normalize_article ("[Newscatcher] " ++ a.title)
              (pyOr a.summary a.excerpt) a.link a.cleanUrl a.publishedDate)
          dedupe_and_filter out 60

/-- One element of the GDELT document list; `None` values from
`d.get(...)` are collapsed to `""` (missing `source` is `"GDELT"`). -/
structure GdeltDoc where
  title : String
  seenDocumentTitle : String
  description : String
  summary : String
  url : String
  domain : String
  source : String
  seenDate : String
deriving DecidableEq

/-- The parsed GDELT response body: the `articles` and `docs` lists read
by `r.json().get("articles", []) or r.json().get("docs", [])`. -/
structure GdeltPayload where
  articles : List GdeltDoc
  docs : List GdeltDoc
deriving DecidableEq

/-- `fetch_from_gdelt(max_items)` from `admin_app.py`: no credential;
the whole body sits in one `try`, so a raised request, a 4xx/5xx status
or an unparseable body returns `[]`. -/
def fetch_from_gdelt (net : NetResult GdeltPayload)
    (max_items : Nat := 30) : List NewsItem :=
  match net with
  | .exn => []
  | .ok status body =>
    if raise_for_status_throws status then []
    else
      match body with
      | none => []
      | some data =>
        let docs := pyOrList data.articles data.docs
        let out := (docs.take max_items).map (fun d =>
          let title := pyOr d.title d.seenDocumentTitle
          let desc := pyOr d.description d.summary
          let link := pyOr d.url d.domain
          normalize_article ("[GDELT] " ++ title) desc link d.source d.seenDate)
        dedupe_and_filter out 60

/-- `fetch_from_commoncrawl_stub(max_items)` from `admin_app.py`: logs
that it is unimplemented and always returns `[]`. -/
def fetch_from_commoncrawl_stub (max_items : Nat := 0) : List NewsItem :=
  []

/-- One RSS entry, with the `e.get(..., "")` defaults already applied. -/
structure RssEntry where
  title : String
  description : String
  summary : String
  link : String
  published : String
  updated : String
deriving DecidableEq

/-- A parsed feed: `d.feed.get("title")` (collapsed to `""` when missing)
and `d.entries`. -/
structure RssFeed where
  feedTitle : String
  entries : List RssEntry
deriving DecidableEq

/-- `fetch_from_rss(feeds, limit_per_feed)` from `admin_app.py`.  Each
feed is a URL paired with the outcome of `feedparser.parse`: `none` when
the per-feed `try` body raises (the error is logged and the feed is
skipped), `some d` otherwise. -/
def fetch_from_rss (feeds : List (String × Option RssFeed))
    (limit_per_feed : Nat := 6) : List NewsItem :=
  let items := feeds.foldl (fun acc p =>
    match p.2 with
    | none => acc
    | some d =>
      let source := pyStrip (pyOr d.feedTitle p.1)
      acc ++ (d.entries.take limit_per_feed).map (fun e =>
        normalize_article ("[RSS " ++ source ++ "] " ++ pyStrip e.title)
          (pyOr e.description e.summary) e.link source
          (pyOr e.published e.updated))) []
  dedupe_and_filter items 80

/-! ## Aggregator -/

/-- The synthetic item substituted by `fetch_and_cache_all` when the
merged, deduplicated list is empty. -/
def waitingForNewsItem : NewsItem :=
  { title := "Waiting for tech news..."
    description := "Loading the latest technology news and updates..."
    link := ""
    source := "System"
    published := "" }

/-- `fetch_and_cache_all()` from `admin_app.py`.  `adapterResults` is the
list of candidate lists returned by the individually-wrapped adapter
invocations (an adapter that raises contributes `[]` via its `except`
arm); `now` is `int(time.time())`.  The returned cache is also the value
serialised to `news_cache.json` (a failed write is logged and does not
change the returned value). -/
def fetch_and_cache_all (adapterResults : List (List NewsItem)) (now : Int) : NewsCache :=
  let items := adapterResults.flatten
  let combined := dedupe_and_filter items 120
  let combined := if combined = [] then [waitingForNewsItem] else combined
  { generated := now, items := combined }

/-! ## Rotation state and idle page -/

/-- `increment_rotation_index(total)` from `admin_app.py`, as a pure map
from the stored index (`get_rotation_index()`, any integer) and `total`
to the index written back. -/
def increment_rotation_index (stored total : Int) : Int :=
  if total ≤ 0 then 0 else (stored + 1) % total

/-- The fallback item used by the `idle` route when no cache is present
or its item list is empty. -/
def idleFallbackItem : NewsItem :=
  { title := "Waiting for tech news...", description := "", link := ""
    source := "System", published := "" }

/-- The item list the `idle` route dereferences: the parsed cache's items
(`none` models a missing cache file, whose replacement dict carries the
fallback item), with `news.get("items") or [...]` forcing a fallback
singleton when the parsed list is empty. -/
def idle_items (cache : Option NewsCache) : List NewsItem :=
  let news := match cache with
    | some c => c
    | none => { generated := 0, items := [idleFallbackItem] }
  match news.items with
  | [] => [idleFallbackItem]
  | l => l

/-- The headline lookup `items[idx % total]` performed by the `idle`
route, with `idx` the persisted rotation index and `total = len(items)`;
Python's `%` on a positive modulus is `Int.emod`. -/
def idle_headline (cache : Option NewsCache) (storedIdx : Int) : Option NewsItem :=
  let items := idle_items cache
  items[(storedIdx % (items.length : Int)).toNat]?

/-! ## API routes and video map -/

/-- The placeholder returned by `/api/news` when the cache file is
missing or unparseable. -/
def noNewsItem : NewsItem :=
  { title := "No news available", description := "", link := ""
    source := "System", published := "" }

/-- `api_news()` from `admin_app.py`: `some data` is a cache file that
exists and parses (returned verbatim as JSON), `none` a missing or
unparseable one. -/
def api_news (cache : Option NewsCache) : NewsCache :=
  match cache with
  | some data => data
  | none => { generated := 0, items := [noNewsItem] }

/-- The UID-to-filename map, as the insertion-ordered key-value pairs of
the JSON dict (keys unique). -/
abbrev VideoMap : Type := List (String × String)

/-- Python dict assignment `vm[k] = v`: overwrite an existing binding of
`k` in place, otherwise append. -/
def vmInsert (vm : VideoMap) (k v : String) : VideoMap :=
  if vm.any (fun p => p.1 == k) then
    vm.map (fun p => if p.1 == k then (k, v) else p)
  else vm ++ [(k, v)]

/-- The `/map` route body (`map_uid`) from `admin_app.py`: strip and
uppercase the submitted UID, strip the filename, and bind only when both
are non-empty. -/
def map_uid (vm : VideoMap) (uidForm fileForm : String) : VideoMap :=
  let uid := pyUpper (pyStrip uidForm)
  let fname := pyStrip fileForm
  if uid ≠ "" ∧ fname ≠ "" then vmInsert vm uid fname else vm

/-! ## List helper lemmas -/

lemma takeWhile_append_all {p : Char → Bool} {w : List Char} (r : List Char)
    (h : ∀ x ∈ w, p x = true) : (w ++ r).takeWhile p = w ++ r.takeWhile p := by
  induction w with
  | nil => rfl
  | cons a w ih =>
    have ha := h a (by simp)
    simp [List.takeWhile_cons, ha, ih (fun x hx => h x (by simp [hx]))]

lemma dropWhile_append_all {p : Char → Bool} {w : List Char} (r : List Char)
    (h : ∀ x ∈ w, p x = true) : (w ++ r).dropWhile p = r.dropWhile p := by
  induction w with
  | nil => rfl
  | cons a w ih =>
    have ha := h a (by simp)
    simp [List.dropWhile_cons, ha, ih (fun x hx => h x (by simp [hx]))]

lemma dropWhile_append_cons_neg {p : Char → Bool} {c : Char} (hc : p c = false)
    (a b : List Char) : (a ++ c :: b).dropWhile p = a.dropWhile p ++ c :: b := by
  induction a with
  | nil => simp [List.dropWhile_cons, hc]
  | cons d a ih =>
    by_cases hd : p d = true
    · simp [List.dropWhile_cons, hd, ih]
    · simp only [Bool.not_eq_true] at hd
      simp [List.dropWhile_cons, hd]

/-! ## Word-splitting lemmas -/

lemma pyWords_ws_cons {c : Char} (hc : isPyWS c = true) (cs : List Char) :
    pyWords (c :: cs) = pyWords cs := by
  simp [pyWords, hc]

lemma pyWords_cons_cons_nonws {a b : Char} (ha : isPyWS a = false)
    (hb : isPyWS b = false) (cs : List Char) :
    pyWords (a :: b :: cs) =
      match pyWords (b :: cs) with
      | [] => [[a]]
      | w :: rest => (a :: w) :: rest := by
  simp [pyWords, ha, hb]

lemma pyWords_single {w : List Char} (hw : w ≠ [])
    (hall : ∀ c ∈ w, isPyWS c = false) : pyWords w = [w] := by
  induction w with
  | nil => simp at hw
  | cons a w ih =>
    cases w with
    | nil => simp [pyWords, hall a (by simp)]
    | cons b w' =>
      have hb : isPyWS b = false := hall b (by simp)
      have ha : isPyWS a = false := hall a (by simp)
      have ihw : pyWords (b :: w') = [b :: w'] :=
        ih (by simp) (fun c hc => hall c (by simp [hc]))
      rw [pyWords_cons_cons_nonws ha hb, ihw]

lemma pyWords_word_append {w : List Char} (hw : w ≠ [])
    (hall : ∀ c ∈ w, isPyWS c = false) {c : Char} (hc : isPyWS c = true)
    (rest : List Char) : pyWords (w ++ c :: rest) = w :: pyWords rest := by
  induction w with
  | nil => simp at hw
  | cons a w ih =>
    have ha : isPyWS a = false := hall a (by simp)
    cases w with
    | nil =>
      simp only [List.nil_append, List.cons_append]
      simp [pyWords, ha, hc]
    | cons b w' =>
      have hb : isPyWS b = false := hall b (by simp)
      have ihw := ih (by simp) (fun x hx => hall x (by simp [hx]))
      simp only [List.cons_append] at ihw ⊢
      rw [pyWords_cons_cons_nonws ha hb, ihw]

lemma pyWords_good : ∀ (cs : List Char), ∀ w ∈ pyWords cs,
    w ≠ [] ∧ ∀ c ∈ w, isPyWS c = false := by
  intro cs
  induction cs with
  | nil => simp [pyWords]
  | cons a cs ih =>
    by_cases ha : isPyWS a = true
    · rw [pyWords_ws_cons ha]; exact ih
    · simp only [Bool.not_eq_true] at ha
      intro w hw
      cases cs with
      | nil =>
        simp only [pyWords, ha, Bool.false_eq_true, if_false] at hw
        simp at hw
        subst hw
        exact ⟨by simp, by intro c hc; simp at hc; subst hc; exact ha⟩
      | cons d cs' =>
        by_cases hd : isPyWS d = true
        · simp only [pyWords, ha, Bool.false_eq_true, if_false, hd, if_true] at hw
          rw [List.mem_cons] at hw
          rcases hw with rfl | h
          · exact ⟨by simp, by intro c hc; simp at hc; subst hc; exact ha⟩
          · exact ih w (by rw [pyWords_ws_cons hd]; exact h)
        · simp only [Bool.not_eq_true] at hd
          rw [pyWords_cons_cons_nonws ha hd] at hw
          rcases hmatch : pyWords (d :: cs') with _ | ⟨w0, rest0⟩
          · rw [hmatch] at hw
            simp at hw
            subst hw
            exact ⟨by simp, by intro c hc; simp at hc; subst hc; exact ha⟩
          · rw [hmatch] at hw
            simp only [List.mem_cons] at hw
            rcases hw with rfl | h
            · have h0 := ih w0 (by rw [hmatch]; simp)
              refine ⟨by simp, ?_⟩
              intro c hc
              rcases List.mem_cons.1 hc with rfl | hcw
              · exact ha
              · exact h0.2 c hcw
            · exact ih w (by rw [hmatch]; simp [h])

lemma startsWithL_append_self : ∀ (a b : List Char), startsWithL (a ++ b) a = true := by
  intro a
  induction a with
  | nil => intro b; rw [List.nil_append]; cases b <;> rfl
  | cons c a ih => intro b; simp [startsWithL, ih]

lemma endsWithL_append (y d : List Char) : endsWithL (y ++ d) d = true := by
  unfold endsWithL
  rw [List.reverse_append]
  exact startsWithL_append_self _ _

lemma joinSp_cons_ne (a : List Char) (l : List (List Char)) (h : l ≠ []) :
    joinSp (a :: l) = a ++ ' ' :: joinSp l := by
  cases l with
  | nil => exact absurd rfl h
  | cons b l' => rfl

lemma joinSp_append_single {l : List (List Char)} (hl : l ≠ []) (w : List Char) :
    joinSp (l ++ [w]) = joinSp l ++ ' ' :: w := by
  induction l with
  | nil => simp at hl
  | cons a l ih =>
    cases l with
    | nil => simp [joinSp]
    | cons b l' =>
      have h1 := joinSp_cons_ne a (b :: l') (by simp)
      have h2 := joinSp_cons_ne a ((b :: l') ++ [w]) (by simp)
      rw [List.cons_append, h2, ih (by simp), h1]
      simp

lemma pyWords_joinSp_append {l : List (List Char)}
    (hgood : ∀ w ∈ l, w ≠ [] ∧ ∀ c ∈ w, isPyWS c = false) (rest : List Char) :
    pyWords (joinSp l ++ ' ' :: rest) = l ++ pyWords rest := by
  induction l with
  | nil => exact pyWords_ws_cons (by decide) rest
  | cons w l ih =>
    cases l with
    | nil =>
      simp only [joinSp, List.nil_append]
      exact pyWords_word_append (hgood w (by simp)).1 (hgood w (by simp)).2 (by decide) rest
    | cons x l' =>
      have hw := hgood w (by simp)
      have ihx := ih (fun u hu => hgood u (by simp [hu]))
      rw [joinSp_cons_ne w (x :: l') (by simp), List.append_assoc, List.cons_append,
        pyWords_word_append hw.1 hw.2 (by decide), ihx]
      simp

lemma rstrip_append_space (x w : List Char) :
    pyRstripPunct (x ++ ' ' :: w) = x ++ ' ' :: pyRstripPunct w := by
  have hsp : isTrailPunct ' ' = false := rfl
  unfold pyRstripPunct
  have h1 : (x ++ ' ' :: w).reverse = w.reverse ++ ' ' :: x.reverse := by
    simp
  rw [h1, dropWhile_append_cons_neg hsp]
  simp

lemma mem_rstrip {c : Char} {w : List Char} (h : c ∈ pyRstripPunct w) : c ∈ w := by
  unfold pyRstripPunct at h
  rw [List.mem_reverse] at h
  have := (List.dropWhile_sublist isTrailPunct).subset h
  rwa [List.mem_reverse] at this

/-! ## C3: word bound of the Normalizer -/

/-- C3 (amended): for every input string, `shorten_description text 45`
contains at most 45 whitespace-delimited words, and when the cleaned text
(HTML tags removed, CR/LF collapsed, stripped) has more than 45 words the
output ends with the ellipsis marker `"..."`. -/
theorem claim_C3_shorten_bounds (text : String) :
    (pyWords (shorten_description text 45).data).length ≤ 45 ∧
    (45 < (pyWords (cleanText text.data)).length →
      endsWithL (shorten_description text 45).data ['.', '.', '.'] = true) := by
  by_cases h0 : text = ""
  · subst h0
    exact ⟨by decide, by decide⟩
  · by_cases htr : 45 < (pyWords (cleanText text.data)).length
    · -- truncation branch
      have hout : (shorten_description text 45).data =
          pyRstripPunct (joinSp ((pyWords (cleanText text.data)).take 45)) ++
            ['.', '.', '.'] := by
        simp only [shorten_description, h0, if_false, htr, if_true]
      have hlen : ((pyWords (cleanText text.data)).take 45).length = 45 := by
        rw [List.length_take]
        omega
      have hgood : ∀ w ∈ (pyWords (cleanText text.data)).take 45,
          w ≠ [] ∧ ∀ c ∈ w, isPyWS c = false :=
        fun w hw => pyWords_good _ w (List.take_subset _ _ hw)
      have hlne : (pyWords (cleanText text.data)).take 45 ≠ [] := by
        intro h
        rw [h] at hlen
        simp at hlen
      have hinitlen : ((pyWords (cleanText text.data)).take 45).dropLast.length = 44 := by
        rw [List.length_dropLast, hlen]
      have hinitne : ((pyWords (cleanText text.data)).take 45).dropLast ≠ [] := by
        intro h
        rw [h] at hinitlen
        simp at hinitlen
      have hdecomp : ((pyWords (cleanText text.data)).take 45).dropLast ++
          [((pyWords (cleanText text.data)).take 45).getLast hlne] =
          (pyWords (cleanText text.data)).take 45 :=
        List.dropLast_append_getLast hlne
      have hjoin : joinSp ((pyWords (cleanText text.data)).take 45) =
          joinSp ((pyWords (cleanText text.data)).take 45).dropLast ++
            ' ' :: ((pyWords (cleanText text.data)).take 45).getLast hlne := by
        conv_lhs => rw [← hdecomp]
        exact joinSp_append_single hinitne _
      have hW : ∀ c ∈ pyRstripPunct (((pyWords (cleanText text.data)).take 45).getLast hlne) ++
          ['.', '.', '.'], isPyWS c = false := by
        intro c hc
        rcases List.mem_append.1 hc with h | h
        · exact (hgood _ (List.getLast_mem hlne)).2 c (mem_rstrip h)
        · simp at h
          subst h
          decide
      have hwords : pyWords (shorten_description text 45).data =
          ((pyWords (cleanText text.data)).take 45).dropLast ++
            [pyRstripPunct (((pyWords (cleanText text.data)).take 45).getLast hlne) ++
              ['.', '.', '.']] := by
        rw [hout, hjoin, rstrip_append_space, List.append_assoc, List.cons_append]
        rw [pyWords_joinSp_append
          (fun u hu => hgood u (List.dropLast_subset _ hu)) _]
        rw [pyWords_single (by simp) hW]
      refine ⟨?_, fun _ => ?_⟩
      · rw [hwords, List.length_append, hinitlen]
        simp
      · rw [hout]
        exact endsWithL_append _ _
    · -- no truncation: the output is the cleaned text itself
      have hout : (shorten_description text 45).data = cleanText text.data := by
        simp only [shorten_description, h0, if_false, htr, if_true]
      exact ⟨by rw [hout]; omega, fun h => absurd h htr⟩

/-- An input whose raw text has 46 whitespace-delimited words, all inside
one HTML tag: `re.sub` removes the whole tag, so `shorten_description`
returns `""` without any ellipsis marker. -/
def c3TagInput : String :=
  "<w w w w w w w w w w w w w w w w w w w w w w w w w w w w w w w w w w w w w w w w w w w w w w>"

/-- C3 (counterexample to the claim as stated): this input has more than
45 whitespace-delimited words, yet the `shorten_description` output (the
empty string) does not end with an ellipsis marker, because the word
count that triggers truncation is taken after HTML-tag removal, not on
the raw input. -/
theorem claim_C3_counterexample :
    45 < (pyWords c3TagInput.data).length ∧
    endsWithL (shorten_description c3TagInput 45).data ['.', '.', '.'] = false := by
  decide

/-- A plain input with 46 whitespace-delimited words. -/
def c3ManyWords : String :=
  "w w w w w w w w w w w w w w w w w w w w w w w w w w w w w w w w w w w w w w w w w w w w w w"

/-- C3 witness: on a concrete 46-word input the truncation hypothesis
holds and the output carries the ellipsis marker. -/
theorem claim_C3_witness :
    endsWithL (shorten_description c3ManyWords 45).data ['.', '.', '.'] = true :=
  (claim_C3_shorten_bounds c3ManyWords).2 (by decide)

/-! ## Substring lemmas -/

lemma startsWithL_iff : ∀ (l p : List Char), startsWithL l p = true ↔ ∃ y, l = p ++ y := by
  intro l p
  induction p generalizing l with
  | nil =>
    constructor
    · intro _; exact ⟨l, rfl⟩
    · intro _; cases l <;> rfl
  | cons c p ih =>
    cases l with
    | nil =>
      simp only [startsWithL, Bool.false_eq_true, false_iff]
      rintro ⟨y, hy⟩
      simp at hy
    | cons d l' =>
      constructor
      · intro h
        simp only [startsWithL, Bool.and_eq_true, decide_eq_true_eq] at h
        obtain ⟨y, hy⟩ := (ih l').1 h.2
        exact ⟨y, by simp [h.1, hy]⟩
      · rintro ⟨y, hy⟩
        simp only [List.cons_append, List.cons.injEq] at hy
        simp only [startsWithL, Bool.and_eq_true, decide_eq_true_eq]
        exact ⟨hy.1, (ih l').2 ⟨y, hy.2⟩⟩

lemma isSubstr_iff : ∀ (l p : List Char), isSubstr p l = true ↔ ∃ x y, l = x ++ p ++ y := by
  intro l
  induction l with
  | nil =>
    intro p
    cases p with
    | nil => simp [isSubstr, startsWithL]
    | cons c ps =>
      simp only [isSubstr, startsWithL, Bool.false_eq_true, false_iff]
      rintro ⟨x, y, hy⟩
      simp at hy
  | cons c cs ih =>
    intro p
    simp only [isSubstr, Bool.or_eq_true, startsWithL_iff, ih]
    constructor
    · rintro (⟨y, hy⟩ | ⟨x, y, hy⟩)
      · exact ⟨[], y, by simp [hy]⟩
      · exact ⟨c :: x, y, by simp [hy]⟩
    · rintro ⟨x, y, hy⟩
      cases x with
      | nil =>
        simp only [List.nil_append] at hy
        exact Or.inl ⟨y, hy⟩
      | cons d x' =>
        simp only [List.cons_append, List.cons.injEq] at hy
        exact Or.inr ⟨x', y, hy.2⟩

lemma strip_decomp (cs : List Char) : ∃ a b, cs = a ++ pyStripL cs ++ b := by
  refine ⟨cs.takeWhile isPyWS,
    ((cs.dropWhile isPyWS).reverse.takeWhile isPyWS).reverse, ?_⟩
  conv_lhs => rw [← List.takeWhile_append_dropWhile isPyWS cs]
  rw [List.append_assoc]
  congr 1
  conv_lhs => rw [← List.reverse_reverse (cs.dropWhile isPyWS),
    ← List.takeWhile_append_dropWhile isPyWS (cs.dropWhile isPyWS).reverse]
  rw [List.reverse_append]
  rfl

lemma isSubstr_map_strip {q : List Char} {cs : List Char} (f : Char → Char)
    (h : isSubstr q ((pyStripL cs).map f) = true) : isSubstr q (cs.map f) = true := by
  obtain ⟨a, b, hab⟩ := strip_decomp cs
  obtain ⟨x, y, hxy⟩ := (isSubstr_iff _ _).1 h
  refine (isSubstr_iff _ _).2 ⟨a.map f ++ x, y ++ b.map f, ?_⟩
  rw [hab]
  simp only [List.map_append, hxy]
  simp [List.append_assoc]

/-! ## Deduplicator invariants -/

lemma ddfGo_cons (it : NewsItem) (rest : List NewsItem) (seenT seenL : List String)
    (count maxI : Nat) :
    ddfGo (it :: rest) seenT seenL count maxI =
      if pyStrip it.title = "" then
        ddfGo rest seenT seenL count maxI
      else if !matchesKeyword (pyStrip it.title) then
        ddfGo rest seenT seenL count maxI
      else if seenT.contains (pyStrip it.title) ||
          (!(pyStrip it.link == "") && seenL.contains (pyStrip it.link)) then
        ddfGo rest seenT seenL count maxI
      else if maxI ≤ count + 1 then
        [it]
      else
        it :: ddfGo rest (pyStrip it.title :: seenT)
          (if pyStrip it.link == "" then seenL else pyStrip it.link :: seenL)
          (count + 1) maxI := rfl

lemma contains_false_not_mem {s : List String} {t : String}
    (h : s.contains t = false) : t ∉ s := by
  intro hmem
  rw [List.contains_eq_any_beq] at h
  simp [List.any_eq_true] at h
  exact h _ hmem rfl

lemma skip_cond_decomp {seenT seenL : List String} {t l : String}
    (h : ¬(seenT.contains t || (!(l == "") && seenL.contains l)) = true) :
    t ∉ seenT ∧ (l = "" ∨ l ∉ seenL) := by
  simp only [Bool.or_eq_true, not_or, Bool.and_eq_true, Bool.not_eq_true', beq_iff_eq,
    not_and] at h
  refine ⟨contains_false_not_mem (by simpa using h.1), ?_⟩
  by_cases hx : l = ""
  · exact Or.inl hx
  · right
    have := h.2 (by simpa using hx)
    exact contains_false_not_mem (by simpa using this)

lemma ddfGo_mem : ∀ (items : List NewsItem) (seenT seenL : List String) (count maxI : Nat),
    ∀ x ∈ ddfGo items seenT seenL count maxI,
      pyStrip x.title ≠ "" ∧ matchesKeyword (pyStrip x.title) = true ∧
      pyStrip x.title ∉ seenT ∧ (pyStrip x.link ≠ "" → pyStrip x.link ∉ seenL) := by
  intro items
  induction items with
  | nil =>
    intro seenT seenL count maxI x hx
    simp [ddfGo] at hx
  | cons it rest ih =>
    intro seenT seenL count maxI x hx
    rw [ddfGo_cons] at hx
    set seenL' := if pyStrip it.link == "" then seenL else pyStrip it.link :: seenL
      with hseenL'
    split_ifs at hx with h1 h2 h3 h4
    · exact ih seenT seenL count maxI x hx
    · exact ih seenT seenL count maxI x hx
    · exact ih seenT seenL count maxI x hx
    · -- accepted and hit the cap: output is [it]
      rw [List.mem_singleton] at hx
      subst hx
      obtain ⟨hT, hL⟩ := skip_cond_decomp h3
      refine ⟨h1, by simpa using h2, hT, ?_⟩
      intro hl
      rcases hL with hfalse | hnm
      · exact absurd hfalse hl
      · exact hnm
    · -- accepted, continue
      rw [List.mem_cons] at hx
      rcases hx with rfl | hx
      · obtain ⟨hT, hL⟩ := skip_cond_decomp h3
        refine ⟨h1, by simpa using h2, hT, ?_⟩
        intro hl
        rcases hL with hfalse | hnm
        · exact absurd hfalse hl
        · exact hnm
      · have hm := ih _ _ _ _ x hx
        refine ⟨hm.1, hm.2.1, ?_, ?_⟩
        · intro hmem
          exact hm.2.2.1 (List.mem_cons_of_mem _ hmem)
        · intro hl hmem
          apply hm.2.2.2 hl
          rw [hseenL']
          by_cases hle : pyStrip it.link = ""
          · simp only [hle, if_pos]
            simpa [hle] using hmem
          · rw [if_neg (by simpa using hle)]
            exact List.mem_cons_of_mem _ hmem

lemma ddfGo_pairwise : ∀ (items : List NewsItem) (seenT seenL : List String)
    (count maxI : Nat),
    (ddfGo items seenT seenL count maxI).Pairwise (fun a b =>
      pyStrip a.title ≠ pyStrip b.title ∧
      (pyStrip a.link ≠ "" → pyStrip a.link ≠ pyStrip b.link)) := by
  intro items
  induction items with
  | nil =>
    intro seenT seenL count maxI
    simp [ddfGo]
  | cons it rest ih =>
    intro seenT seenL count maxI
    rw [ddfGo_cons]
    set seenL' := if pyStrip it.link == "" then seenL else pyStrip it.link :: seenL
      with hseenL'
    split_ifs with h1 h2 h3 h4
    · exact ih seenT seenL count maxI
    · exact ih seenT seenL count maxI
    · exact ih seenT seenL count maxI
    · simp
    · refine List.Pairwise.cons ?_ (ih _ _ _ _)
      intro b hb
      have hm := ddfGo_mem _ _ _ _ _ b hb
      constructor
      · intro heq
        exact hm.2.2.1 (by rw [← heq]; exact List.mem_cons_self _ _)
      · intro hl heq
        by_cases hbl : pyStrip b.link = ""
        · exact hl (heq.trans hbl)
        · apply hm.2.2.2 hbl
          rw [hseenL', if_neg (by simpa using hl)]
          rw [← heq]
          exact List.mem_cons_self _ _

/-! ## C2: deduplication guarantees -/

/-- C2 (amended): for every candidate list and maximum size (and every
shuffle order), the `dedupe_and_filter` output contains no two items with
the same non-empty title, no two items whose links are equal and non-empty
after stripping whitespace (a whitespace-only link is treated as empty by
the code and not deduplicated), and every output item has a non-empty
title. -/
theorem claim_C2_dedupe_distinct (items : List NewsItem) (max_items : Nat) :
    ((dedupe_and_filter items max_items).Pairwise fun a b =>
      a.title = b.title → a.title = "") ∧
    ((dedupe_and_filter items max_items).Pairwise fun a b =>
      pyStrip a.link = pyStrip b.link → pyStrip a.link = "") ∧
    ∀ x ∈ dedupe_and_filter items max_items, x.title ≠ "" := by
  have hp := ddfGo_pairwise items [] [] 0 max_items
  refine ⟨?_, ?_, ?_⟩
  · exact hp.imp (fun h heq => absurd (congrArg pyStrip heq) h.1)
  · exact hp.imp (fun h heq => by
      by_contra hne
      exact h.2 hne heq)
  · intro x hx h0
    apply (ddfGo_mem items [] [] 0 max_items x hx).1
    rw [h0]
    rfl

/-- Two keyword-matching items sharing the whitespace-only link `" "`. -/
def dupLinkItemA : NewsItem := ⟨"AI alpha", "", " ", "", ""⟩

/-- Second item with the same whitespace-only link. -/
def dupLinkItemB : NewsItem := ⟨"AI beta", "", " ", "", ""⟩

/-- C2 (counterexample to the claim as stated): on this input both items
survive (their stripped link is empty, so link deduplication is skipped)
in either shuffle order, yet they carry the same non-empty link `" "`. -/
theorem claim_C2_counterexample :
    (¬ ((dedupe_and_filter [dupLinkItemA, dupLinkItemB] 80).Pairwise fun a b =>
        a.link = b.link → a.link = "")) ∧
    (¬ ((dedupe_and_filter [dupLinkItemB, dupLinkItemA] 80).Pairwise fun a b =>
        a.link = b.link → a.link = "")) := by
  decide

/-- A single item whose title matches the keyword `"AI"`. -/
def kwItem : NewsItem := ⟨"AI news", "", "", "", ""⟩

/-- C2 witness: the amended theorem applied at a concrete input. -/
theorem claim_C2_witness : kwItem.title ≠ "" :=
  (claim_C2_dedupe_distinct [kwItem] 80).2.2 kwItem (by decide)

/-! ## C7: no keyword means empty output -/

lemma ddfGo_all_unmatched : ∀ (items : List NewsItem) (seenT seenL : List String)
    (count maxI : Nat),
    (∀ it ∈ items, matchesKeyword (pyStrip it.title) = false) →
    ddfGo items seenT seenL count maxI = [] := by
  intro items
  induction items with
  | nil => intro _ _ _ _ _; rfl
  | cons it rest ih =>
    intro seenT seenL count maxI h
    have hm : matchesKeyword (pyStrip it.title) = false := h it (by simp)
    rw [ddfGo_cons]
    by_cases h1 : pyStrip it.title = ""
    · rw [if_pos h1]
      exact ih _ _ _ _ (fun x hx => h x (by simp [hx]))
    · rw [if_neg h1, if_pos (by simp [hm])]
      exact ih _ _ _ _ (fun x hx => h x (by simp [hx]))

/-- C7: if no item's title contains (case-insensitively) any configured
keyword, `dedupe_and_filter` returns the empty list, whatever the
maximum size and iteration order. -/
theorem claim_C7_no_keyword_empty (items : List NewsItem) (max_items : Nat)
    (h : ∀ it ∈ items, ∀ k ∈ ALLOWED_KEYWORDS,
      isSubstr (pyLower k).data (pyLower it.title).data = false) :
    dedupe_and_filter items max_items = [] := by
  apply ddfGo_all_unmatched
  intro it hit
  by_contra hm
  rw [Bool.not_eq_false, matchesKeyword, List.any_eq_true] at hm
  obtain ⟨k, hk, hsub⟩ := hm
  have hraw : isSubstr (pyLower k).data (pyLower it.title).data = true :=
    isSubstr_map_strip Char.toLower hsub
  rw [h it hit k hk] at hraw
  exact Bool.false_ne_true hraw

/-- An item whose title matches no configured keyword. -/
def noKwItem : NewsItem := ⟨"zzz", "", "", "", ""⟩

/-- C7 witness: the theorem applied at a concrete keyword-free input. -/
theorem claim_C7_witness : dedupe_and_filter [noKwItem] 80 = [] :=
  claim_C7_no_keyword_empty [noKwItem] 80 (by decide)

/-! ## C10: the missing comma in ALLOWED_KEYWORDS -/

/-- C10: because the Python source concatenates `"model" "Deep Learning"`
into the single keyword `"modelDeep Learning"`, `"Deep Learning"` is not
a standalone configured keyword, and an item whose title contains
`"deep learning"` (case-insensitively) but no configured keyword is
always rejected by `dedupe_and_filter`. -/
theorem claim_C10_deep_learning_dropped :
    ("Deep Learning" ∉ ALLOWED_KEYWORDS ∧ "modelDeep Learning" ∈ ALLOWED_KEYWORDS) ∧
    ∀ (items : List NewsItem) (max_items : Nat) (it : NewsItem), it ∈ items →
      isSubstr "deep learning".data (pyLower it.title).data = true →
      (∀ k ∈ ALLOWED_KEYWORDS, isSubstr (pyLower k).data (pyLower it.title).data = false) →
      it ∉ dedupe_and_filter items max_items := by
  refine ⟨by decide, ?_⟩
  intro items maxI it hit hdl hn hmem
  have hm := (ddfGo_mem items [] [] 0 maxI it hmem).2.1
  rw [matchesKeyword, List.any_eq_true] at hm
  obtain ⟨k, hk, hsub⟩ := hm
  have hraw : isSubstr (pyLower k).data (pyLower it.title).data = true :=
    isSubstr_map_strip Char.toLower hsub
  rw [hn k hk] at hraw
  exact Bool.false_ne_true hraw

/-- An item whose title is exactly `"deep learning"`. -/
def deepLearningItem : NewsItem := ⟨"deep learning", "", "", "", ""⟩

/-- C10 witness: the theorem applied at a concrete item containing
`"deep learning"` and no configured keyword. -/
theorem claim_C10_witness :
    deepLearningItem ∉ dedupe_and_filter [deepLearningItem] 80 :=
  claim_C10_deep_learning_dropped.2 [deepLearningItem] 80 deepLearningItem
    (by decide) (by decide) (by decide)

/-! ## C1: the aggregator never caches an empty item list -/

/-- C1: whatever every adapter returns (including all-empty), the cache
built, returned and persisted by `fetch_and_cache_all` has a non-empty
item list; the placeholder is substituted when the deduplicated merge is
empty. -/
theorem claim_C1_aggregator_nonempty (adapterResults : List (List NewsItem)) (now : Int) :
    (fetch_and_cache_all adapterResults now).items ≠ [] := by
  simp only [fetch_and_cache_all]
  split <;> simp_all

/-! ## C4: adapters map every failure to the empty list -/

/-- C4: for every Source Adapter of `admin_app.py`, each embedded failure
mode returns the empty list.  A missing credential returns `[]` for
every network outcome, so before and independent of any network call
(for ContextualWeb the credential is the key+host pair, and either one
missing suffices); a raised request (`NetResult.exn`), a 4xx/5xx status
(`raise_for_status_throws`, i.e. `400 <= status < 600`), and an
unparseable body (`none`) each land in the `except` branch and return
`[]`; GDELT has no credential but the same `try` body; the CommonCrawl
stub always returns `[]`; the RSS adapter returns `[]` when every
feed's `try` body raises.  All adapters are total functions of the
embedded outcomes: no exception escapes to the caller. -/
theorem claim_C4_adapter_errors :
    (∀ (feeds : List (String × Option RssFeed)) (lim : Nat),
      (∀ p ∈ feeds, p.2 = none) → fetch_from_rss feeds lim = []) ∧
    ((∀ (net : NetResult (List NAArticle)) (ps : Nat),
        fetch_from_newsapi "" net ps = []) ∧
     (∀ (key : String) (ps : Nat), fetch_from_newsapi key NetResult.exn ps = []) ∧
     (∀ (key : String) (st : Nat) (body : Option (List NAArticle)) (ps : Nat),
        raise_for_status_throws st = true →
        fetch_from_newsapi key (NetResult.ok st body) ps = []) ∧
     (∀ (key : String) (st : Nat) (ps : Nat),
        fetch_from_newsapi key (NetResult.ok st none) ps = [])) ∧
    ((∀ (net : NetResult (List NAArticle)) (mi : Nat),
        fetch_from_gnews "" net mi = []) ∧
     (∀ (key : String) (mi : Nat), fetch_from_gnews key NetResult.exn mi = []) ∧
     (∀ (key : String) (st : Nat) (body : Option (List NAArticle)) (mi : Nat),
        raise_for_status_throws st = true →
        fetch_from_gnews key (NetResult.ok st body) mi = []) ∧
     (∀ (key : String) (st : Nat) (mi : Nat),
        fetch_from_gnews key (NetResult.ok st none) mi = [])) ∧
    ((∀ (net : NetResult (List MSArticle)) (ps : Nat),
        fetch_from_mediastack "" net ps = []) ∧
     (∀ (key : String) (ps : Nat), fetch_from_mediastack key NetResult.exn ps = []) ∧
     (∀ (key : String) (st : Nat) (body : Option (List MSArticle)) (ps : Nat),
        raise_for_status_throws st = true →
        fetch_from_mediastack key (NetResult.ok st body) ps = []) ∧
     (∀ (key : String) (st : Nat) (ps : Nat),
        fetch_from_mediastack key (NetResult.ok st none) ps = [])) ∧
    ((∀ (net : NetResult (List NDArticle)) (mi : Nat),
        fetch_from_newsdata "" net mi = []) ∧
     (∀ (key : String) (mi : Nat), fetch_from_newsdata key NetResult.exn mi = []) ∧
     (∀ (key : String) (st : Nat) (body : Option (List NDArticle)) (mi : Nat),
        raise_for_status_throws st = true →
        fetch_from_newsdata key (NetResult.ok st body) mi = []) ∧
     (∀ (key : String) (st : Nat) (mi : Nat),
        fetch_from_newsdata key (NetResult.ok st none) mi = [])) ∧
    ((∀ (net : NetResult (List TNArticle)) (mi : Nat),
        fetch_from_thenewsapi "" net mi = []) ∧
     (∀ (key : String) (mi : Nat), fetch_from_thenewsapi key NetResult.exn mi = []) ∧
     (∀ (key : String) (st : Nat) (body : Option (List TNArticle)) (mi : Nat),
        raise_for_status_throws st = true →
        fetch_from_thenewsapi key (NetResult.ok st body) mi = []) ∧
     (∀ (key : String) (st : Nat) (mi : Nat),
        fetch_from_thenewsapi key (NetResult.ok st none) mi = [])) ∧
    ((∀ (key host : String) (net : NetResult CWPayload) (mi : Nat),
        key = "" ∨ host = "" →
        fetch_from_contextualweb_rapidapi key host net mi = []) ∧
     (∀ (key host : String) (mi : Nat),
        fetch_from_contextualweb_rapidapi key host NetResult.exn mi = []) ∧
     (∀ (key host : String) (st : Nat) (body : Option CWPayload) (mi : Nat),
        raise_for_status_throws st = true →
        fetch_from_contextualweb_rapidapi key host (NetResult.ok st body) mi = []) ∧
     (∀ (key host : String) (st : Nat) (mi : Nat),
        fetch_from_contextualweb_rapidapi key host (NetResult.ok st none) mi = [])) ∧
    ((∀ (net : NetResult (List WebzHit)) (mi : Nat),
        fetch_from_webz "" net mi = []) ∧
     (∀ (key : String) (mi : Nat), fetch_from_webz key NetResult.exn mi = []) ∧
     (∀ (key : String) (st : Nat) (body : Option (List WebzHit)) (mi : Nat),
        raise_for_status_throws st = true →
        fetch_from_webz key (NetResult.ok st body) mi = []) ∧
     (∀ (key : String) (st : Nat) (mi : Nat),
        fetch_from_webz key (NetResult.ok st none) mi = [])) ∧
    ((∀ (net : NetResult (List GuardianResult)) (mi : Nat),
        fetch_from_guardian "" net mi = []) ∧
     (∀ (key : String) (mi : Nat), fetch_from_guardian key NetResult.exn mi = []) ∧
     (∀ (key : String) (st : Nat) (body : Option (List GuardianResult)) (mi : Nat),
        raise_for_status_throws st = true →
        fetch_from_guardian key (NetResult.ok st body) mi = []) ∧
     (∀ (key : String) (st : Nat) (mi : Nat),
        fetch_from_guardian key (NetResult.ok st none) mi = [])) ∧
    ((∀ (net : NetResult (List NYTResult)) (mi : Nat),
        fetch_from_nytimes "" net mi = []) ∧
     (∀ (key : String) (mi : Nat), fetch_from_nytimes key NetResult.exn mi = []) ∧
     (∀ (key : String) (st : Nat) (body : Option (List NYTResult)) (mi : Nat),
        raise_for_status_throws st = true →
        fetch_from_nytimes key (NetResult.ok st body) mi = []) ∧
     (∀ (key : String) (st : Nat) (mi : Nat),
        fetch_from_nytimes key (NetResult.ok st none) mi = [])) ∧
    ((∀ (net : NetResult (List NCArticle)) (mi : Nat),
        fetch_from_newscatcher "" net mi = []) ∧
     (∀ (key : String) (mi : Nat), fetch_from_newscatcher key NetResult.exn mi = []) ∧
     (∀ (key : String) (st : Nat) (body : Option (List NCArticle)) (mi : Nat),
        raise_for_status_throws st = true →
        fetch_from_newscatcher key (NetResult.ok st body) mi = []) ∧
     (∀ (key : String) (st : Nat) (mi : Nat),
        fetch_from_newscatcher key (NetResult.ok st none) mi = [])) ∧
    ((∀ (mi : Nat), fetch_from_gdelt NetResult.exn mi = []) ∧
     (∀ (st : Nat) (body : Option GdeltPayload) (mi : Nat),
        raise_for_status_throws st = true →
        fetch_from_gdelt (NetResult.ok st body) mi = []) ∧
     (∀ (st : Nat) (mi : Nat), fetch_from_gdelt (NetResult.ok st none) mi = [])) ∧
    (∀ (mi : Nat), fetch_from_commoncrawl_stub mi = []) := by
  refine ⟨?_, ⟨?_, ?_, ?_, ?_⟩, ⟨?_, ?_, ?_, ?_⟩, ⟨?_, ?_, ?_, ?_⟩,
    ⟨?_, ?_, ?_, ?_⟩, ⟨?_, ?_, ?_, ?_⟩, ⟨?_, ?_, ?_, ?_⟩, ⟨?_, ?_, ?_, ?_⟩,
    ⟨?_, ?_, ?_, ?_⟩, ⟨?_, ?_, ?_, ?_⟩, ⟨?_, ?_, ?_, ?_⟩, ⟨?_, ?_, ?_⟩, ?_⟩
  · -- RSS: every feed failed
    intro feeds lim
    induction feeds with
    | nil => intro _; rfl
    | cons p fs ih =>
      intro h
      rcases p with ⟨url, po⟩
      have hp : po = none := h (url, po) (by simp)
      subst hp
      exact ih (fun q hq => h q (by simp [hq]))
  · intro net ps; rfl
  · intro key ps; by_cases hk : key = "" <;> simp [fetch_from_newsapi, hk]
  · intro key st body ps h
    by_cases hk : key = "" <;> simp [fetch_from_newsapi, hk, h]
  · intro key st ps
    by_cases hk : key = "" <;> by_cases h4 : raise_for_status_throws st = true <;>
      simp [fetch_from_newsapi, hk, h4]
  · intro net mi; rfl
  · intro key mi; by_cases hk : key = "" <;> simp [fetch_from_gnews, hk]
  · intro key st body mi h
    by_cases hk : key = "" <;> simp [fetch_from_gnews, hk, h]
  · intro key st mi
    by_cases hk : key = "" <;> by_cases h4 : raise_for_status_throws st = true <;>
      simp [fetch_from_gnews, hk, h4]
  · intro net ps; rfl
  · intro key ps; by_cases hk : key = "" <;> simp [fetch_from_mediastack, hk]
  · intro key st body ps h
    by_cases hk : key = "" <;> simp [fetch_from_mediastack, hk, h]
  · intro key st ps
    by_cases hk : key = "" <;> by_cases h4 : raise_for_status_throws st = true <;>
      simp [fetch_from_mediastack, hk, h4]
  · intro net mi; rfl
  · intro key mi; by_cases hk : key = "" <;> simp [fetch_from_newsdata, hk]
  · intro key st body mi h
    by_cases hk : key = "" <;> simp [fetch_from_newsdata, hk, h]
  · intro key st mi
    by_cases hk : key = "" <;> by_cases h4 : raise_for_status_throws st = true <;>
      simp [fetch_from_newsdata, hk, h4]
  · intro net mi; rfl
  · intro key mi; by_cases hk : key = "" <;> simp [fetch_from_thenewsapi, hk]
  · intro key st body mi h
    by_cases hk : key = "" <;> simp [fetch_from_thenewsapi, hk, h]
  · intro key st mi
    by_cases hk : key = "" <;> by_cases h4 : raise_for_status_throws st = true <;>
      simp [fetch_from_thenewsapi, hk, h4]
  · intro key host net mi h
    exact if_pos h
  · intro key host mi
    by_cases hg : key = "" ∨ host = "" <;>
      simp [fetch_from_contextualweb_rapidapi, hg]
  · intro key host st body mi h
    by_cases hg : key = "" ∨ host = "" <;>
      simp [fetch_from_contextualweb_rapidapi, hg, h]
  · intro key host st mi
    by_cases hg : key = "" ∨ host = "" <;>
      by_cases h4 : raise_for_status_throws st = true <;>
      simp [fetch_from_contextualweb_rapidapi, hg, h4]
  · intro net mi; rfl
  · intro key mi; by_cases hk : key = "" <;> simp [fetch_from_webz, hk]
  · intro key st body mi h
    by_cases hk : key = "" <;> simp [fetch_from_webz, hk, h]
  · intro key st mi
    by_cases hk : key = "" <;> by_cases h4 : raise_for_status_throws st = true <;>
      simp [fetch_from_webz, hk, h4]
  · intro net mi; rfl
  · intro key mi; by_cases hk : key = "" <;> simp [fetch_from_guardian, hk]
  · intro key st body mi h
    by_cases hk : key = "" <;> simp [fetch_from_guardian, hk, h]
  · intro key st mi
    by_cases hk : key = "" <;> by_cases h4 : raise_for_status_throws st = true <;>
      simp [fetch_from_guardian, hk, h4]
  · intro net mi; rfl
  · intro key mi; by_cases hk : key = "" <;> simp [fetch_from_nytimes, hk]
  · intro key st body mi h
    by_cases hk : key = "" <;> simp [fetch_from_nytimes, hk, h]
  · intro key st mi
    by_cases hk : key = "" <;> by_cases h4 : raise_for_status_throws st = true <;>
      simp [fetch_from_nytimes, hk, h4]
  · intro net mi; rfl
  · intro key mi; by_cases hk : key = "" <;> simp [fetch_from_newscatcher, hk]
  · intro key st body mi h
    by_cases hk : key = "" <;> simp [fetch_from_newscatcher, hk, h]
  · intro key st mi
    by_cases hk : key = "" <;> by_cases h4 : raise_for_status_throws st = true <;>
      simp [fetch_from_newscatcher, hk, h4]
  · intro mi; rfl
  · intro st body mi h
    simp [fetch_from_gdelt, h]
  · intro st mi
    by_cases h4 : raise_for_status_throws st = true <;> simp [fetch_from_gdelt, h4]
  · intro mi; rfl

/-- C4 witness: one concrete failure outcome per adapter (a 4xx/5xx
status with a parseable body for the keyed adapters and GDELT, a missing
half of the ContextualWeb credential pair, an all-feeds-failed RSS run),
each producing the empty list. -/
theorem claim_C4_witness :
    fetch_from_rss [("x", none)] 6 = [] ∧
    fetch_from_newsapi "k" (NetResult.ok 404 (some [])) 20 = [] ∧
    fetch_from_gnews "k" (NetResult.ok 500 (some [])) 20 = [] ∧
    fetch_from_mediastack "k" (NetResult.ok 404 (some [])) 20 = [] ∧
    fetch_from_newsdata "k" (NetResult.ok 404 (some [])) 20 = [] ∧
    fetch_from_thenewsapi "k" (NetResult.ok 404 (some [])) 20 = [] ∧
    fetch_from_contextualweb_rapidapi "" "h" NetResult.exn 20 = [] ∧
    fetch_from_contextualweb_rapidapi "k" "h" (NetResult.ok 404 (some ⟨[], []⟩)) 20 = [] ∧
    fetch_from_webz "k" (NetResult.ok 404 (some [])) 20 = [] ∧
    fetch_from_guardian "k" (NetResult.ok 404 (some [])) 20 = [] ∧
    fetch_from_nytimes "k" (NetResult.ok 404 (some [])) 20 = [] ∧
    fetch_from_newscatcher "k" (NetResult.ok 404 (some [])) 20 = [] ∧
    fetch_from_gdelt (NetResult.ok 503 (some ⟨[], []⟩)) 30 = [] := by
  obtain ⟨hrss, hna, hgn, hms, hnd, htn, hcw, hwz, hgu, hny, hnc, hgd, _hcc⟩ :=
    claim_C4_adapter_errors
  exact ⟨hrss [("x", none)] 6 (by decide),
    hna.2.2.1 "k" 404 (some []) 20 (by decide),
    hgn.2.2.1 "k" 500 (some []) 20 (by decide),
    hms.2.2.1 "k" 404 (some []) 20 (by decide),
    hnd.2.2.1 "k" 404 (some []) 20 (by decide),
    htn.2.2.1 "k" 404 (some []) 20 (by decide),
    hcw.1 "" "h" NetResult.exn 20 (Or.inl rfl),
    hcw.2.2.1 "k" "h" 404 (some ⟨[], []⟩) 20 (by decide),
    hwz.2.2.1 "k" 404 (some []) 20 (by decide),
    hgu.2.2.1 "k" 404 (some []) 20 (by decide),
    hny.2.2.1 "k" 404 (some []) 20 (by decide),
    hnc.2.2.1 "k" 404 (some []) 20 (by decide),
    hgd.2.1 503 (some ⟨[], []⟩) 30 (by decide)⟩

/-! ## C5: the idle headline lookup is always in bounds -/

/-- C5: for every cache state and every stored rotation index (any
integer), the `idle` route's item list is forced non-empty, the index is
reduced modulo the current item count to a value below the length, and
the headline lookup `items[idx % total]` succeeds. -/
theorem claim_C5_idle_in_bounds (cache : Option NewsCache) (storedIdx : Int) :
    idle_items cache ≠ [] ∧
    (storedIdx % ((idle_items cache).length : Int)).toNat <
      (idle_items cache).length ∧
    (idle_headline cache storedIdx).isSome = true := by
  have hne : idle_items cache ≠ [] := by
    unfold idle_items
    rcases cache with _ | c
    · simp
    · rcases hit : c.items with _ | ⟨a, l⟩ <;> simp [hit]
  have hpos : 0 < (idle_items cache).length := List.length_pos.mpr hne
  have h1 : 0 ≤ storedIdx % ((idle_items cache).length : Int) :=
    Int.emod_nonneg _ (by exact_mod_cast Nat.pos_iff_ne_zero.mp hpos)
  have h2 : storedIdx % ((idle_items cache).length : Int) <
      ((idle_items cache).length : Int) :=
    Int.emod_lt_of_pos _ (by exact_mod_cast hpos)
  have hlt : (storedIdx % ((idle_items cache).length : Int)).toNat <
      (idle_items cache).length := by omega
  refine ⟨hne, hlt, ?_⟩
  unfold idle_headline
  rw [List.getElem?_eq_getElem hlt]
  rfl

/-! ## C6: rotation advance -/

/-- C6: `increment_rotation_index` writes `0` for every stored index when
`total ≤ 0`; for `total > 0` it writes `(stored + 1) mod total`, a value
in `[0, total)`; in particular advancing from index 2 with total 3 yields
0. -/
theorem claim_C6_rotation_advance :
    (∀ (stored total : Int), total ≤ 0 → increment_rotation_index stored total = 0) ∧
    (∀ (stored total : Int), 0 < total →
      increment_rotation_index stored total = (stored + 1) % total ∧
      0 ≤ increment_rotation_index stored total ∧
      increment_rotation_index stored total < total) ∧
    increment_rotation_index 2 3 = 0 := by
  refine ⟨?_, ?_, by decide⟩
  · intro s t ht
    rw [increment_rotation_index, if_pos ht]
  · intro s t ht
    rw [increment_rotation_index, if_neg (by omega)]
    exact ⟨rfl, Int.emod_nonneg _ (by omega), Int.emod_lt_of_pos _ ht⟩

/-- C6 witness: the theorem applied at `total = 0` (idempotent reset) and
at the wrap example `index = 2, total = 3`. -/
theorem claim_C6_witness :
    increment_rotation_index 7 0 = 0 ∧ increment_rotation_index 2 3 = 0 :=
  ⟨claim_C6_rotation_advance.1 7 0 (by decide), claim_C6_rotation_advance.2.2⟩

/-! ## C8: the news API fallback -/

/-- C8: `/api/news` returns the parsed cache verbatim when the file
exists and parses, and otherwise a structure with `generated = 0` and the
single `"No news available"` placeholder item. -/
theorem claim_C8_api_news (d : NewsCache) :
    api_news (some d) = d ∧
    api_news none = { generated := 0, items := [noNewsItem] } ∧
    noNewsItem.title = "No news available" :=
  ⟨rfl, rfl, rfl⟩

/-! ## C9: video map keys are uppercased at write time -/

lemma charOfNat_upper_toNat {m : Nat} (h1 : 65 ≤ m) (h2 : m ≤ 90) :
    (Char.ofNat m).toNat = m := by
  interval_cases m <;> rfl

lemma pyToUpper_idem (c : Char) : pyToUpper (pyToUpper c) = pyToUpper c := by
  by_cases h : 97 ≤ c.toNat ∧ c.toNat ≤ 122
  · have hm : (Char.ofNat (c.toNat - 32)).toNat = c.toNat - 32 :=
      charOfNat_upper_toNat (by omega) (by omega)
    have hc : pyToUpper c = Char.ofNat (c.toNat - 32) := if_pos h
    rw [hc]
    exact if_neg (by rw [hm]; omega)
  · have hc : pyToUpper c = c := if_neg h
    rw [hc, hc]

lemma pyUpper_idem (s : String) : pyUpper (pyUpper s) = pyUpper s := by
  show (⟨(s.data.map pyToUpper).map pyToUpper⟩ : String) = ⟨s.data.map pyToUpper⟩
  rw [List.map_map]
  congr 1
  exact List.map_congr_left (fun a _ => pyToUpper_idem a)

/-- C9: the `/map` bind operation writes nothing when the processed UID
or filename is empty, and every pair of the resulting map either was
already present or is the new binding, whose key is the stripped,
uppercased UID (hence a fixed point of uppercasing) and whose value is
the stripped filename. -/
theorem claim_C9_map_uid (vm : VideoMap) (uidForm fileForm : String) :
    ((pyUpper (pyStrip uidForm) = "" ∨ pyStrip fileForm = "") →
      map_uid vm uidForm fileForm = vm) ∧
    ∀ p ∈ map_uid vm uidForm fileForm,
      p ∈ vm ∨ (p.1 = pyUpper (pyStrip uidForm) ∧ pyUpper p.1 = p.1 ∧
        p.2 = pyStrip fileForm) := by
  have hunf : map_uid vm uidForm fileForm =
      if pyUpper (pyStrip uidForm) ≠ "" ∧ pyStrip fileForm ≠ "" then
        vmInsert vm (pyUpper (pyStrip uidForm)) (pyStrip fileForm)
      else vm := rfl
  constructor
  · intro h
    rw [hunf, if_neg (by rcases h with h | h <;> simp [h])]
  · intro p hp
    rw [hunf] at hp
    by_cases hc : pyUpper (pyStrip uidForm) ≠ "" ∧ pyStrip fileForm ≠ ""
    · rw [if_pos hc, vmInsert] at hp
      by_cases hex : vm.any (fun q => q.1 == pyUpper (pyStrip uidForm)) = true
      · rw [if_pos hex] at hp
        obtain ⟨q, hq, hfq⟩ := List.mem_map.1 hp
        by_cases hqk : q.1 == pyUpper (pyStrip uidForm)
        · rw [if_pos hqk] at hfq
          subst hfq
          exact Or.inr ⟨rfl, pyUpper_idem _, rfl⟩
        · rw [if_neg hqk] at hfq
          subst hfq
          exact Or.inl hq
      · rw [if_neg hex] at hp
        rcases List.mem_append.1 hp with h | h
        · exact Or.inl h
        · rw [List.mem_singleton] at h
          subst h
          exact Or.inr ⟨rfl, pyUpper_idem _, rfl⟩
    · rw [if_neg hc] at hp
      exact Or.inl hp

/-- C9 witness: binding UID `"ab "` to `"v.mp4"` in an empty map; the
new pair's key is the stripped, uppercased UID. -/
theorem claim_C9_witness :
    ("AB", "v.mp4").1 = pyUpper (pyStrip "ab ") ∧
    pyUpper ("AB", "v.mp4").1 = ("AB", "v.mp4").1 ∧
    ("AB", "v.mp4").2 = pyStrip "v.mp4" := by
  rcases (claim_C9_map_uid [] "ab " "v.mp4").2 ("AB", "v.mp4") (by decide) with h | h
  · exact absurd h (by decide)
  · exact h
